import Mathlib

/-
Shallow embedding of the otelzap logging facade (package `logger`):
level parsing, the OTLP bridge core (`SimpleOTLPCore`), field-to-attribute
encoding, facade construction (`NewLogger` / `buildCores`) and the
per-level logging methods with context field extraction.

Conventions of the embedding:
  * `zapcore.Level` is an `int8` in Go; we embed it as `Int` with the named
    constants below, so that the `default` arm of severity mapping is real.
  * `time.Duration` is an `int64` count of nanoseconds; embedded as `Int`.
  * External collaborators (the OTLP gRPC client, the batch processor, the
    network) are not part of this repository; where the code consults them
    we pass their outcome as an explicit oracle argument (for example
    `otlpErr : Option String` is the error returned by OTLP-core creation,
    `none` meaning success).
  * Go map iteration order is unspecified and independent of insertion
    order; we model the iteration over the encoder map by emitting entries
    in key-sorted order, which is likewise a function of the map contents
    only, never of insertion order.
  * A Go `float64` is carried abstractly by its 64-bit pattern; its
    `fmt "%v"` rendering is abstracted as a function of those bits.
-/

namespace Otelzap

/-- zapcore.DebugLevel = -1. -/
def DebugLevel : Int := -1

/-- zapcore.InfoLevel = 0. -/
def InfoLevel : Int := 0

/-- zapcore.WarnLevel = 1. -/
def WarnLevel : Int := 1

/-- zapcore.ErrorLevel = 2. -/
def ErrorLevel : Int := 2

/-- zapcore.DPanicLevel = 3. -/
def DPanicLevel : Int := 3

/-- zapcore.PanicLevel = 4. -/
def PanicLevel : Int := 4

/-- zapcore.FatalLevel = 5. -/
def FatalLevel : Int := 5

/-- strings.ToLower: lowercases every character (Char.toLower agrees with
Go on the ASCII range the level strings draw from); written as a plain list
map so it evaluates inside the kernel. -/
def goToLower (s : String) : String :=
  String.mk (s.data.map Char.toLower)

/-- parseLevel converts a level string to a zapcore.Level, returned together
with the `error` value of the Go function (`none` = nil error).  Mirrors the
`switch strings.ToLower(levelStr)` in the source. -/
def parseLevel (levelStr : String) : Int × Option String :=
  let l := goToLower levelStr
  if l = "debug" then (DebugLevel, none)
  else if l = "info" then (InfoLevel, none)
  else if l = "warn" ∨ l = "warning" then (WarnLevel, none)
  else if l = "error" then (ErrorLevel, none)
  else if l = "fatal" then (FatalLevel, none)
  else (InfoLevel, some ("unknown level: " ++ levelStr))

/-- parseLevelDefault returns the level, discarding the error. -/
def parseLevelDefault (levelStr : String) : Int :=
  (parseLevel levelStr).1

/-- otelLog.SeverityDebug = 5. -/
def SeverityDebug : Int := 5

/-- otelLog.SeverityInfo = 9. -/
def SeverityInfo : Int := 9

/-- otelLog.SeverityWarn = 13. -/
def SeverityWarn : Int := 13

/-- otelLog.SeverityError = 17. -/
def SeverityError : Int := 17

/-- otelLog.SeverityFatal = 21. -/
def SeverityFatal : Int := 21

/-- mapZapToOtelSeverity: the fixed switch from zap levels to OTLP
severities, with `default: SeverityInfo`. -/
def mapZapToOtelSeverity (level : Int) : Int :=
  if level = DebugLevel then SeverityDebug
  else if level = InfoLevel then SeverityInfo
  else if level = WarnLevel then SeverityWarn
  else if level = ErrorLevel then SeverityError
  else if level = DPanicLevel ∨ level = PanicLevel ∨ level = FatalLevel then SeverityFatal
  else SeverityInfo

/-- A Go float64 value, carried abstractly by its 64-bit pattern.  No claim
computes with floats; the pattern only rides along through the encoders. -/
structure F64 where
  bits : Nat
  deriving DecidableEq

/-- The values a zapcore.MapObjectEncoder stores in its `Fields` map after
`Field.AddTo`: strings, bools, int64s, float64s, `[]interface\x7b\x7d` for
arrays and `map[string]interface\x7b\x7d` for nested objects. -/
inductive EncValue where
  | str (s : String)
  | boolv (b : Bool)
  | int64 (i : Int)
  | float64 (x : F64)
  | arr (xs : List EncValue)
  | dict (entries : List (String × EncValue))

/-- A zap field: a key together with the value that `Field.AddTo` would
store into a map object encoder for it. -/
structure Field where
  key : String
  value : EncValue

/-- zap.String builds a string-valued field. -/
def zapString (k v : String) : Field :=
  ⟨k, EncValue.str v⟩

/-- The attribute values of the OTLP log data model used by the bridge:
otelLog.StringValue / BoolValue / Int64Value / Float64Value. -/
inductive OtelValue where
  | str (s : String)
  | boolv (b : Bool)
  | int64 (i : Int)
  | float64 (x : F64)
  deriving DecidableEq

/-- otelLog.KeyValue: one OTLP attribute. -/
structure KeyValue where
  key : String
  value : OtelValue
  deriving DecidableEq

/-- otelLog.String builds a string attribute. -/
def otelString (k v : String) : KeyValue :=
  ⟨k, OtelValue.str v⟩

/-- otelLog.Record as the bridge populates it: severity, string body,
timestamp and an attribute list extended by `AddAttributes`. -/
structure OtelRecord where
  severity : Int
  body : String
  timestamp : Nat
  attrs : List KeyValue
  deriving DecidableEq

/-- Record.AddAttributes appends attributes. -/
def OtelRecord.AddAttributes (r : OtelRecord) (attrs : List KeyValue) : OtelRecord :=
  { r with attrs := r.attrs ++ attrs }

/-- zapcore.EntryCaller: whether the caller is defined, plus its location. -/
structure EntryCaller where
  defined : Bool
  file : String
  line : Nat

/-- EntryCaller.String renders the caller location as file:line. -/
def EntryCaller.toText (c : EntryCaller) : String :=
  c.file ++ (":") ++ toString c.line

/-- zapcore.Entry: the per-call record handed to Core.Write.  `time` is an
abstract timestamp tick. -/
structure Entry where
  level : Int
  time : Nat
  loggerName : String
  message : String
  caller : EntryCaller
  stack : String

/-- Ordering of string-keyed pairs by key, used to fix an iteration order
for Go maps (whose real order is unspecified and insertion-independent). -/
def keyLe {β : Type} (a b : String × β) : Prop :=
  a.1 ≤ b.1

instance {β : Type} : DecidableRel (@keyLe β) :=
  fun a b => inferInstanceAs (Decidable (a.1 ≤ b.1))

instance {β : Type} : IsTotal (String × β) (@keyLe β) :=
  ⟨fun a b => le_total a.1 b.1⟩

instance {β : Type} : IsTrans (String × β) (@keyLe β) :=
  ⟨fun _ _ _ h1 h2 => le_trans h1 h2⟩

mutual

/-- Go fmt `%v` rendering of an encoder value (float rendering abstracted to
the bit pattern; maps rendered with key-sorted entries as fmt does). -/
def sprintfV : EncValue → String
  | .str s => s
  | .boolv b => if b then ("true") else ("false")
  | .int64 i => toString i
  | .float64 x => ("float64bits=") ++ toString x.bits
  | .arr xs => ("[") ++ (" ").intercalate (sprintfVList xs) ++ ("]")
  | .dict m =>
      ("map[") ++
        (" ").intercalate
          ((List.insertionSort keyLe (sprintfVEntries m)).map
            (fun p => p.1 ++ (":") ++ p.2)) ++ ("]")

/-- Renders each element of a list of encoder values. -/
def sprintfVList : List EncValue → List String
  | [] => []
  | v :: rest => sprintfV v :: sprintfVList rest

/-- Renders the values of map entries, keeping the keys. -/
def sprintfVEntries : List (String × EncValue) → List (String × String)
  | [] => []
  | (k, v) :: rest => (k, sprintfV v) :: sprintfVEntries rest

end

/-- Go map assignment m[k] = v on an association-list model: replaces the
binding in place when the key exists, otherwise appends. -/
def mapSet : List (String × EncValue) → String → EncValue → List (String × EncValue)
  | [], k, v => [(k, v)]
  | p :: rest, k, v => if p.1 = k then (k, v) :: rest else p :: mapSet rest k v

/-- Go map lookup m[k]. -/
def mapGet : List (String × EncValue) → String → Option EncValue
  | [], _ => none
  | p :: rest, k => if p.1 = k then some p.2 else mapGet rest k

/-- The `enc.Fields` map after adding every field to a fresh
zapcore.NewMapObjectEncoder, in order. -/
def buildFieldsMap (fields : List Field) : List (String × EncValue) :=
  fields.foldl (fun m f => mapSet m f.key f.value) []

/-- The encoded value of the last field carrying key k, if any: with Go map
semantics, a later field with the same key overwrites an earlier one. -/
def lastValue? : List Field → String → Option EncValue
  | [], _ => none
  | f :: rest, k =>
      match lastValue? rest k with
      | some v => some v
      | none => if f.key = k then some f.value else none

/-- The per-value switch of encodeFieldsToAttrs: string, bool, int64 and
float64 map directly; arrays, maps and everything else become a string
attribute holding the generic `%v` rendering. -/
def attrValueOf : EncValue → OtelValue
  | .str s => .str s
  | .boolv b => .boolv b
  | .int64 i => .int64 i
  | .float64 x => .float64 x
  | .arr xs => .str (sprintfV (.arr xs))
  | .dict m => .str (sprintfV (.dict m))

/-- encodeFieldsToAttrs: adds all fields to a map object encoder, then turns
each map entry into an OTLP attribute (map iteration modeled in key order). -/
def encodeFieldsToAttrs (fields : List Field) : List KeyValue :=
  if fields.isEmpty then []
  else
    (List.insertionSort keyLe (buildFieldsMap fields)).map
      (fun p => ⟨p.1, attrValueOf p.2⟩)

/-- SimpleOTLPCore: the remote sink bridge.  The external client and batch
processor handles are abstracted to their nil-ness, which is all the code
inspects; `level` is the minimum enabled severity of its LevelEnabler and
`emitTimeout` is in nanoseconds. -/
structure SimpleOTLPCore where
  otlpLoggerPresent : Bool
  processorPresent : Bool
  level : Int
  emitTimeout : Int
  deriving DecidableEq

/-- NewSimpleOTLPCore: constructs the bridge, defaulting a zero emitTimeout
to 500ms. -/
def NewSimpleOTLPCore (otlpLoggerPresent processorPresent : Bool)
    (level : Int) (emitTimeout : Int) : SimpleOTLPCore :=
  ⟨otlpLoggerPresent, processorPresent, level,
    if emitTimeout = 0 then 500000000 else emitTimeout⟩

/-- Enabled: whether the bridge accepts records at `level`. -/
def SimpleOTLPCore.Enabled (c : SimpleOTLPCore) (level : Int) : Bool :=
  c.level ≤ level

/-- With: builds a new core from the same four components; the fields
argument is not used. -/
def SimpleOTLPCore.With (c : SimpleOTLPCore) (fields : List Field) : SimpleOTLPCore :=
  { otlpLoggerPresent := c.otlpLoggerPresent
    processorPresent := c.processorPresent
    level := c.level
    emitTimeout := c.emitTimeout }

/-- Outcome of emitWithTimeout: the returned error, the records handed to
the external client, and the timeout of the context the emission ran under
(`none` when no emission happened). -/
structure EmitResult where
  err : Option String
  emitted : List OtelRecord
  deadline : Option Int
  deriving DecidableEq

/-- emitWithTimeout: errors when the client handle is nil; otherwise emits
the record under a context carrying the configured timeout.  The external
Emit has no return value, so no other error can arise here. -/
def SimpleOTLPCore.emitWithTimeout (c : SimpleOTLPCore) (record : OtelRecord) : EmitResult :=
  if c.otlpLoggerPresent = false then ⟨some ("otlp logger is nil"), [], none⟩
  else ⟨none, [record], some c.emitTimeout⟩

/-- makeBaseRecord: severity, body = message, timestamp. -/
def makeBaseRecord (entry : Entry) (sev : Int) : OtelRecord :=
  { severity := sev, body := entry.message, timestamp := entry.time, attrs := [] }

/-- The OTLP record Write assembles before emitting: base record, field
attributes when nonempty, then caller and stacktrace attributes. -/
def writeRecord (entry : Entry) (fields : List Field) : OtelRecord :=
  let record := makeBaseRecord entry (mapZapToOtelSeverity entry.level)
  let record :=
    if fields.isEmpty then record
    else
      let attrs := encodeFieldsToAttrs fields
      if attrs.isEmpty then record else record.AddAttributes attrs
  let record :=
    if entry.caller.defined then
      record.AddAttributes [otelString ("caller") entry.caller.toText]
    else record
  if entry.stack = ("") then record
  else record.AddAttributes [otelString ("stacktrace") entry.stack]

/-- Everything observable about one call to SimpleOTLPCore.Write: the error
returned to the caller, the record built, the records emitted to the
external client, the lines written to stderr, and the context deadline the
emission ran under. -/
structure WriteResult where
  ret : Option String
  record : OtelRecord
  emitted : List OtelRecord
  stderrOut : List String
  emitDeadline : Option Int
  deriving DecidableEq

/-- SimpleOTLPCore.Write: builds the record, emits it with the timeout, and
on an emission error writes the fallback notice to stderr and still returns
a nil error. -/
def SimpleOTLPCore.Write (c : SimpleOTLPCore) (entry : Entry) (fields : List Field) : WriteResult :=
  let record := writeRecord entry fields
  let e := c.emitWithTimeout record
  let stderrOut :=
    match e.err with
    | some err =>
        [("failed to emit OTLP log: ") ++ err ++ (", message: ") ++ entry.message]
    | none => []
  ⟨none, record, e.emitted, stderrOut, e.deadline⟩

/-- SimpleOTLPCore.Sync: nil when there is no processor; otherwise force
flushes, wrapping a flush failure.  The external flush outcome is the
oracle `flushErr`. -/
def SimpleOTLPCore.Sync (c : SimpleOTLPCore) (flushErr : Option String) : Option String :=
  if c.processorPresent = false then none
  else
    match flushErr with
    | some e => some (("failed to flush OTLP processor: ") ++ e)
    | none => none

/-- A value held in a Go context for one of the well-known keys: either a
string (the only type the extraction asserts to) or some non-string value. -/
inductive CtxVal where
  | str (s : String)
  | nonString

/-- The slice of a Go context the extractor consults: the values under the
private trace-id and user-id keys, `none` when absent. -/
structure Ctx where
  traceID : Option CtxVal
  userID : Option CtxVal

/-- Config: the logger configuration struct. -/
structure Config where
  AsJSON : Bool
  EnableOTLP : Bool
  EnableStdout : Bool
  Level : String
  OtlpEndpoint : String
  OtlpUseTLS : Bool
  ServiceName : String
  ServiceEnvironment : String
  ShutdownTimeout : Int
  FieldExtractors : List (Ctx → List Field)

/-- The default configuration literal at the top of NewLogger. -/
def defaultConfig : Config :=
  { AsJSON := true
    EnableOTLP := false
    EnableStdout := true
    Level := ("info")
    OtlpEndpoint := ("")
    OtlpUseTLS := false
    ServiceName := ("")
    ServiceEnvironment := ("")
    ShutdownTimeout := 2000000000
    FieldExtractors := [] }

/-- The Go zero value of Config, held by the nop logger wrappers. -/
def zeroConfig : Config :=
  { AsJSON := false
    EnableOTLP := false
    EnableStdout := false
    Level := ("")
    OtlpEndpoint := ("")
    OtlpUseTLS := false
    ServiceName := ("")
    ServiceEnvironment := ("")
    ShutdownTimeout := 0
    FieldExtractors := [] }

/-- One zapcore core of the Tee: the stdout console core (with its encoder
choice and minimum level) or the OTLP bridge. -/
inductive Core where
  | stdout (asJSON : Bool) (minLevel : Int)
  | otlp (c : SimpleOTLPCore)

/-- Whether a core is enabled at a level. -/
def Core.enabledAt : Core → Int → Bool
  | .stdout _ minLevel, lvl => minLevel ≤ lvl
  | .otlp c, lvl => c.Enabled lvl

/-- Logger: the facade.  `cores` is the list zapcore.NewTee was built from
(empty for the nop loggers, whose core discards everything), `hasProvider`
records whether an OTLP provider was constructed. -/
structure Logger where
  cores : List Core
  hasProvider : Bool
  config : Config

/-- fieldsFromContext: trace id (when present, a string and nonempty), then
user id likewise, then each configured extractor in registration order. -/
def Logger.fieldsFromContext (l : Logger) (ctx : Ctx) : List Field :=
  let fields : List Field := []
  let fields :=
    match ctx.traceID with
    | some (CtxVal.str traceID) =>
        if traceID ≠ ("") then fields ++ [zapString ("trace_id") traceID] else fields
    | _ => fields
  let fields :=
    match ctx.userID with
    | some (CtxVal.str userID) =>
        if userID ≠ ("") then fields ++ [zapString ("user_id") userID] else fields
    | _ => fields
  l.config.FieldExtractors.foldl (fun fs fn => fs ++ fn ctx) fields

/-- The entry a facade-level call builds: wall-clock time and runtime caller
capture are environment effects, abstracted to fixed values. -/
def mkEntry (lvl : Int) (msg : String) : Entry :=
  { level := lvl, time := 0, loggerName := ("") , message := msg
    caller := ⟨false, (""), 0⟩, stack := ("") }

/-- The observable output of a logging call across all sinks: console
writes (encoder choice, entry, fields), records emitted to the OTLP client,
and stderr lines. -/
structure Outputs where
  consoleWrites : List (Bool × Entry × List Field)
  emitted : List OtelRecord
  stderrOut : List String

/-- Concatenation of outputs. -/
def Outputs.append (a b : Outputs) : Outputs :=
  ⟨a.consoleWrites ++ b.consoleWrites, a.emitted ++ b.emitted, a.stderrOut ++ b.stderrOut⟩

/-- What one core contributes when it writes an entry. -/
def Core.writeTo : Core → Entry → List Field → Outputs
  | .stdout asJSON _, entry, fields => ⟨[(asJSON, entry, fields)], [], []⟩
  | .otlp c, entry, fields =>
      let w := c.Write entry fields
      ⟨[], w.emitted, w.stderrOut⟩

/-- The effect of one facade logging call: the severity, message and field
list handed to the underlying zap logger, the outputs of every enabled
core, and whether zap then terminates the process (fatal level). -/
structure LogEffect where
  level : Int
  msg : String
  fields : List Field
  outputs : Outputs
  terminates : Bool

/-- zapLogger.(Debug|...|Fatal)(msg, fields...): fan the entry out to every
core of the Tee enabled at the level, in list order. -/
def Logger.logAt (l : Logger) (lvl : Int) (msg : String) (fields : List Field) : LogEffect :=
  let entry := mkEntry lvl msg
  let outs :=
    (l.cores.filter (fun c => c.enabledAt lvl)).foldl
      (fun acc c => acc.append (c.writeTo entry fields)) ⟨[], [], []⟩
  { level := lvl, msg := msg, fields := fields, outputs := outs
    terminates := lvl == FatalLevel }

/-- Logger.Debug forwards context fields followed by call-site fields. -/
def Logger.Debug (l : Logger) (ctx : Ctx) (msg : String) (fields : List Field) : LogEffect :=
  l.logAt DebugLevel msg (l.fieldsFromContext ctx ++ fields)

/-- Logger.Info forwards context fields followed by call-site fields. -/
def Logger.Info (l : Logger) (ctx : Ctx) (msg : String) (fields : List Field) : LogEffect :=
  l.logAt InfoLevel msg (l.fieldsFromContext ctx ++ fields)

/-- Logger.Warn forwards context fields followed by call-site fields. -/
def Logger.Warn (l : Logger) (ctx : Ctx) (msg : String) (fields : List Field) : LogEffect :=
  l.logAt WarnLevel msg (l.fieldsFromContext ctx ++ fields)

/-- Logger.Error forwards context fields followed by call-site fields. -/
def Logger.Error (l : Logger) (ctx : Ctx) (msg : String) (fields : List Field) : LogEffect :=
  l.logAt ErrorLevel msg (l.fieldsFromContext ctx ++ fields)

/-- Logger.Fatal forwards context fields followed by call-site fields, then
the process terminates. -/
def Logger.Fatal (l : Logger) (ctx : Ctx) (msg : String) (fields : List Field) : LogEffect :=
  l.logAt FatalLevel msg (l.fieldsFromContext ctx ++ fields)

/-- createOTLPCore: creation of the exporter/provider is an external
effect, whose outcome is the oracle `otlpErr` (`none` = success); on
success the bridge receives the level parsed without error propagation and
the configured shutdown timeout as its emit timeout. -/
def createOTLPCore (cfg : Config) (otlpErr : Option String) : Except String SimpleOTLPCore :=
  match otlpErr with
  | some e => Except.error e
  | none =>
      Except.ok (NewSimpleOTLPCore true true (parseLevelDefault cfg.Level) cfg.ShutdownTimeout)

/-- What buildCores hands back: the Tee list, whether an OTLP provider now
exists, and the stderr lines it printed. -/
structure BuildCoresResult where
  cores : List Core
  hasProvider : Bool
  stderrOut : List String

/-- buildCores: stdout core first when enabled, then the OTLP core when
enabled and successfully created (a creation failure is printed to stderr
and the core omitted); error when the list ends up empty. -/
def buildCores (cfg : Config) (level : Int) (otlpErr : Option String) : Except String BuildCoresResult :=
  let cores : List Core := []
  let cores := if cfg.EnableStdout then cores ++ [Core.stdout cfg.AsJSON level] else cores
  let res : List Core × Bool × List String :=
    if cfg.EnableOTLP then
      match createOTLPCore cfg otlpErr with
      | Except.error e => (cores, false, [("failed to create OTLP core: ") ++ e])
      | Except.ok c => (cores ++ [Core.otlp c], true, [])
    else (cores, false, [])
  if res.1.isEmpty then Except.error ("no cores configured")
  else Except.ok ⟨res.1, res.2.1, res.2.2⟩

/-- A successful NewLogger call: the logger plus the stderr lines printed
during construction. -/
structure NewLoggerResult where
  logger : Logger
  stderrOut : List String

/-- NewLogger: folds the options over the default configuration, parses the
level (failing on a parse error), builds the cores (failing on a build
error), and wraps the Tee. -/
def NewLogger (opts : List (Config → Config)) (otlpErr : Option String) : Except String NewLoggerResult :=
  let cfg := opts.foldl (fun c o => o c) defaultConfig
  match (parseLevel cfg.Level).2 with
  | some e => Except.error (("invalid log level: ") ++ e)
  | none =>
      match buildCores cfg (parseLevel cfg.Level).1 otlpErr with
      | Except.error e => Except.error (("failed to build cores: ") ++ e)
      | Except.ok r => Except.ok ⟨⟨r.cores, r.hasProvider, cfg⟩, r.stderrOut⟩

/-- NewNoopLogger (nop.go): a Logger wrapping zap.NewNop, whose core
discards every write. -/
def NewNoopLogger : Logger :=
  ⟨[], false, zeroConfig⟩

/-- NewNopLogger (logger.go): same wrapping of zap.NewNop. -/
def NewNopLogger : Logger :=
  ⟨[], false, zeroConfig⟩

/-- NewBenchmarkLogger: zap.New over a nop core. -/
def NewBenchmarkLogger : Logger :=
  ⟨[], false, zeroConfig⟩

/-- Logger.Sync: zap Tee sync; the console writer ignores Sync, the
OTLP core force-flushes (outcome oracle `flushErr`).  Errors are combined. -/
def Logger.Sync (l : Logger) (flushErr : Option String) : Option String :=
  let errs := l.cores.filterMap (fun c =>
    match c with
    | Core.stdout _ _ => none
    | Core.otlp oc => oc.Sync flushErr)
  if errs.isEmpty then none else some ((", ").intercalate errs)

/-- Logger.Close: sync zap, then shut the provider down when one exists
(outcome oracle `shutdownErr`); failures are collected and reported
together, neither step being skipped for the other. -/
def Logger.Close (l : Logger) (flushErr : Option String) (shutdownErr : Option String) : Option String :=
  let errs : List String := []
  let errs :=
    match l.Sync flushErr with
    | some e => errs ++ [("failed to sync zap: ") ++ e]
    | none => errs
  let errs :=
    if l.hasProvider then
      match shutdownErr with
      | some e => errs ++ [("failed to shutdown OTLP: ") ++ e]
      | none => errs
    else errs
  if errs.isEmpty then none else some (("close errors: ") ++ (", ").intercalate errs)

/-- C3: every string in \x7bdebug, info, warn, warning, error, fatal\x7d,
compared case-insensitively, parses to the corresponding level with warn
and warning agreeing; every other string yields the info default together
with a non-nil unknown-level error; and the error-discarding variant always
returns the same level as the erroring parser. -/
theorem c3_parseLevel (s : String) :
    (goToLower s = ("debug") → parseLevel s = (DebugLevel, none))
  ∧ (goToLower s = ("info") → parseLevel s = (InfoLevel, none))
  ∧ (goToLower s = ("warn") → parseLevel s = (WarnLevel, none))
  ∧ (goToLower s = ("warning") → parseLevel s = (WarnLevel, none))
  ∧ (goToLower s = ("error") → parseLevel s = (ErrorLevel, none))
  ∧ (goToLower s = ("fatal") → parseLevel s = (FatalLevel, none))
  ∧ (goToLower s ∉ [("debug"), ("info"), ("warn"), ("warning"), ("error"), ("fatal")] →
      parseLevel s = (InfoLevel, some (("unknown level: ") ++ s)))
  ∧ parseLevelDefault s = (parseLevel s).1 := by
  refine ⟨?_, ?_, ?_, ?_, ?_, ?_, ?_, rfl⟩
  · intro h; simp only [parseLevel]; rw [h]; rfl
  · intro h; simp only [parseLevel]; rw [h]; rfl
  · intro h; simp only [parseLevel]; rw [h]; rfl
  · intro h; simp only [parseLevel]; rw [h]; rfl
  · intro h; simp only [parseLevel]; rw [h]; rfl
  · intro h; simp only [parseLevel]; rw [h]; rfl
  · intro h
    simp only [List.mem_cons, List.not_mem_nil, or_false, not_or] at h
    obtain ⟨h1, h2, h3, h4, h5, h6⟩ := h
    simp only [parseLevel]
    rw [if_neg h1, if_neg h2, if_neg (not_or.mpr ⟨h3, h4⟩), if_neg h5, if_neg h6]

/-- C3 witness: the theorem applied at the concrete inputs WARNING and
bogus. -/
theorem c3_parseLevel_witness :
    parseLevel ("WARNING") = (WarnLevel, none)
  ∧ parseLevel ("bogus") = (InfoLevel, some (("unknown level: ") ++ ("bogus"))) :=
  ⟨(c3_parseLevel ("WARNING")).2.2.2.1 (by decide),
   (c3_parseLevel ("bogus")).2.2.2.2.2.2.1 (by decide)⟩

/-- C5: the bridge maps zap severities by the fixed table debug→DEBUG,
info→INFO, warn→WARN, error→ERROR, dpanic/panic/fatal→FATAL, and every
other level value to INFO. -/
theorem c5_severity_table :
    mapZapToOtelSeverity DebugLevel = SeverityDebug
  ∧ mapZapToOtelSeverity InfoLevel = SeverityInfo
  ∧ mapZapToOtelSeverity WarnLevel = SeverityWarn
  ∧ mapZapToOtelSeverity ErrorLevel = SeverityError
  ∧ mapZapToOtelSeverity DPanicLevel = SeverityFatal
  ∧ mapZapToOtelSeverity PanicLevel = SeverityFatal
  ∧ mapZapToOtelSeverity FatalLevel = SeverityFatal
  ∧ ∀ l : Int,
      l ∉ [DebugLevel, InfoLevel, WarnLevel, ErrorLevel, DPanicLevel, PanicLevel, FatalLevel] →
        mapZapToOtelSeverity l = SeverityInfo := by
  refine ⟨by decide, by decide, by decide, by decide, by decide, by decide, by decide, ?_⟩
  intro l h
  simp only [List.mem_cons, List.not_mem_nil, or_false, not_or] at h
  obtain ⟨h1, h2, h3, h4, h5, h6, h7⟩ := h
  simp only [mapZapToOtelSeverity]
  rw [if_neg h1, if_neg h2, if_neg h3, if_neg h4,
    if_neg (not_or.mpr ⟨h5, not_or.mpr ⟨h6, h7⟩⟩)]

/-- C5 witness: the default arm applied at the out-of-range level 100. -/
theorem c5_severity_table_witness :
    mapZapToOtelSeverity 100 = SeverityInfo :=
  c5_severity_table.2.2.2.2.2.2.2 100 (by decide)

/-- C7: With returns a bridge with the same client, processor, level and
timeout, and records written through it are identical to records written
through the original, so the extra fields never appear on them. -/
theorem c7_with_drops_fields (c : SimpleOTLPCore) (fields : List Field) :
    (c.With fields).otlpLoggerPresent = c.otlpLoggerPresent
  ∧ (c.With fields).processorPresent = c.processorPresent
  ∧ (c.With fields).level = c.level
  ∧ (c.With fields).emitTimeout = c.emitTimeout
  ∧ ∀ (entry : Entry) (fs : List Field), (c.With fields).Write entry fs = c.Write entry fs :=
  ⟨rfl, rfl, rfl, rfl, fun _ _ => rfl⟩

/-- C9: the facade passes the configured shutdown timeout to the bridge as
its per-emit timeout, so the 500ms bridge default applies exactly when
that configured timeout is zero; the default configuration sets it to 2s. -/
theorem c9_emit_timeout_wiring (cfg : Config) (lv : Int) :
    (createOTLPCore cfg none).map SimpleOTLPCore.emitTimeout =
      Except.ok (if cfg.ShutdownTimeout = 0 then 500000000 else cfg.ShutdownTimeout)
  ∧ (NewSimpleOTLPCore true true lv 0).emitTimeout = 500000000
  ∧ defaultConfig.ShutdownTimeout = 2000000000 :=
  ⟨rfl, rfl, rfl⟩

/-- C1: Write never propagates an emission error: it always returns a nil
error; when the emission step fails it writes the one-line fallback notice
carrying the error and the original message to stderr (and nothing
otherwise); and any context deadline imposed on the emission equals the
configured timeout. -/
theorem c1_write_never_propagates (c : SimpleOTLPCore) (entry : Entry) (fields : List Field) :
    (c.Write entry fields).ret = none
  ∧ (∀ err, (c.emitWithTimeout (writeRecord entry fields)).err = some err →
      (c.Write entry fields).stderrOut =
        [("failed to emit OTLP log: ") ++ err ++ (", message: ") ++ entry.message])
  ∧ ((c.emitWithTimeout (writeRecord entry fields)).err = none →
      (c.Write entry fields).stderrOut = [])
  ∧ ∀ d, (c.Write entry fields).emitDeadline = some d → d = c.emitTimeout := by
  by_cases hp : c.otlpLoggerPresent = false
  · refine ⟨rfl, ?_, ?_, ?_⟩
    · intro err herr
      simp only [SimpleOTLPCore.emitWithTimeout, hp, if_true, if_pos] at herr
      cases herr
      simp [SimpleOTLPCore.Write, SimpleOTLPCore.emitWithTimeout, hp]
    · intro herr
      simp [SimpleOTLPCore.emitWithTimeout, hp] at herr
    · intro d hd
      simp [SimpleOTLPCore.Write, SimpleOTLPCore.emitWithTimeout, hp] at hd
  · refine ⟨rfl, ?_, ?_, ?_⟩
    · intro err herr
      simp [SimpleOTLPCore.emitWithTimeout, hp] at herr
    · intro _
      simp [SimpleOTLPCore.Write, SimpleOTLPCore.emitWithTimeout, hp]
    · intro d hd
      simp [SimpleOTLPCore.Write, SimpleOTLPCore.emitWithTimeout, hp] at hd
      exact hd.symm

/-- C1 witness: the theorem applied to a bridge whose client handle is nil
and to one whose client is live. -/
theorem c1_write_never_propagates_witness :
    (SimpleOTLPCore.Write ⟨false, true, 0, 42⟩
        ⟨InfoLevel, 0, (""), ("hello"), ⟨false, (""), 0⟩, ("")⟩ []).stderrOut =
      [("failed to emit OTLP log: ") ++ ("otlp logger is nil") ++ (", message: ") ++ ("hello")]
  ∧ (SimpleOTLPCore.Write ⟨true, true, 0, 42⟩
        ⟨InfoLevel, 0, (""), ("hello"), ⟨false, (""), 0⟩, ("")⟩ []).ret = none :=
  ⟨(c1_write_never_propagates ⟨false, true, 0, 42⟩
      ⟨InfoLevel, 0, (""), ("hello"), ⟨false, (""), 0⟩, ("")⟩ []).2.1
      ("otlp logger is nil") rfl,
   (c1_write_never_propagates ⟨true, true, 0, 42⟩
      ⟨InfoLevel, 0, (""), ("hello"), ⟨false, (""), 0⟩, ("")⟩ []).1⟩

/-- Folding list-append over the outputs of a list of functions
concatenates those outputs, in order, after the accumulator. -/
theorem foldl_append_join {α β : Type} (f : β → List α) :
    ∀ (l : List β) (acc : List α),
      l.foldl (fun fs fn => fs ++ f fn) acc = acc ++ (l.map f).flatten := by
  intro l
  induction l with
  | nil => intro acc; simp
  | cons b rest ih =>
      intro acc
      simp [List.foldl_cons, ih, List.append_assoc]

/-- C4: every per-level method forwards the context-extracted fields
followed by the call-site fields, and context extraction yields the
trace-id field (when a nonempty trace-id string is present), then the
user-id field likewise, then the output of every extractor in registration
order; absent, non-string or empty values contribute no field. -/
theorem c4_field_merge (l : Logger) (ctx : Ctx) (msg : String) (fs : List Field) :
    l.fieldsFromContext ctx =
      (match ctx.traceID with
        | some (CtxVal.str t) => if t = ("") then [] else [zapString ("trace_id") t]
        | some CtxVal.nonString => []
        | none => [])
      ++ (match ctx.userID with
        | some (CtxVal.str u) => if u = ("") then [] else [zapString ("user_id") u]
        | some CtxVal.nonString => []
        | none => [])
      ++ (l.config.FieldExtractors.map (fun fn => fn ctx)).flatten
  ∧ (l.Debug ctx msg fs).fields = l.fieldsFromContext ctx ++ fs
  ∧ (l.Info ctx msg fs).fields = l.fieldsFromContext ctx ++ fs
  ∧ (l.Warn ctx msg fs).fields = l.fieldsFromContext ctx ++ fs
  ∧ (l.Error ctx msg fs).fields = l.fieldsFromContext ctx ++ fs
  ∧ (l.Fatal ctx msg fs).fields = l.fieldsFromContext ctx ++ fs := by
  refine ⟨?_, rfl, rfl, rfl, rfl, rfl⟩
  simp only [Logger.fieldsFromContext, foldl_append_join]
  rcases ctx with ⟨tid, uid⟩
  rcases tid with _ | tv
  · rcases uid with _ | uv
    · simp
    · cases uv with
      | str u =>
          by_cases hu : u = ("") <;> simp [hu]
      | nonString => simp
  · cases tv with
    | str t =>
        rcases uid with _ | uv
        · by_cases ht : t = ("") <;> simp [ht]
        · cases uv with
          | str u =>
              by_cases ht : t = ("") <;> by_cases hu : u = ("") <;>
                simp [ht, hu, List.append_assoc]
          | nonString =>
              by_cases ht : t = ("") <;> simp [ht]
    | nonString =>
        rcases uid with _ | uv
        · simp
        · cases uv with
          | str u =>
              by_cases hu : u = ("") <;> simp [hu]
          | nonString => simp

/-- C8: the no-op facade accepts calls at all five severities as well as
Sync and Close, producing no console, OTLP or stderr output and no error,
whatever the external flush and shutdown oracles would have answered. -/
theorem c8_noop_logger (ctx : Ctx) (msg : String) (fs : List Field)
    (flushErr shutdownErr : Option String) :
    (NewNoopLogger.Debug ctx msg fs).outputs = ⟨[], [], []⟩
  ∧ (NewNoopLogger.Info ctx msg fs).outputs = ⟨[], [], []⟩
  ∧ (NewNoopLogger.Warn ctx msg fs).outputs = ⟨[], [], []⟩
  ∧ (NewNoopLogger.Error ctx msg fs).outputs = ⟨[], [], []⟩
  ∧ (NewNoopLogger.Fatal ctx msg fs).outputs = ⟨[], [], []⟩
  ∧ NewNoopLogger.Sync flushErr = none
  ∧ NewNoopLogger.Close flushErr shutdownErr = none :=
  ⟨rfl, rfl, rfl, rfl, rfl, rfl, rfl⟩

/-- buildCores succeeds exactly when some sink survives: the console is
enabled, or the remote core is enabled and its creation succeeded. -/
theorem buildCores_ok_iff (cfg : Config) (level : Int) (otlpErr : Option String) :
    (∃ r, buildCores cfg level otlpErr = Except.ok r) ↔
      (cfg.EnableStdout = true ∨ (cfg.EnableOTLP = true ∧ otlpErr = none)) := by
  cases hs : cfg.EnableStdout <;> cases ho : cfg.EnableOTLP <;> cases otlpErr <;>
    simp [buildCores, createOTLPCore, hs, ho]

/-- C2: the sink list is the console core first (when enabled) followed by
the remote core (when enabled and successfully created); a remote creation
failure is printed to stderr and the remote core omitted; and construction
fails exactly when the sink list would be empty (NewLogger stated under a
validly parsing level string). -/
theorem c2_core_construction (cfg : Config) (level : Int) (otlpErr : Option String)
    (opts : List (Config → Config)) :
    (∀ r, buildCores cfg level otlpErr = Except.ok r →
        r.cores =
          (if cfg.EnableStdout then [Core.stdout cfg.AsJSON level] else [])
          ++ (if cfg.EnableOTLP = true ∧ otlpErr = none then
                [Core.otlp (NewSimpleOTLPCore true true (parseLevelDefault cfg.Level)
                  cfg.ShutdownTimeout)]
              else []))
  ∧ (∀ r e, buildCores cfg level otlpErr = Except.ok r → cfg.EnableOTLP = true →
        otlpErr = some e →
        r.stderrOut = [("failed to create OTLP core: ") ++ e]
          ∧ r.cores = (if cfg.EnableStdout then [Core.stdout cfg.AsJSON level] else [])
          ∧ r.hasProvider = false)
  ∧ ((∃ r, buildCores cfg level otlpErr = Except.ok r) ↔
        (cfg.EnableStdout = true ∨ (cfg.EnableOTLP = true ∧ otlpErr = none)))
  ∧ ((parseLevel ((opts.foldl (fun c o => o c) defaultConfig).Level)).2 = none →
      ((∃ res, NewLogger opts otlpErr = Except.ok res) ↔
        ((opts.foldl (fun c o => o c) defaultConfig).EnableStdout = true ∨
          ((opts.foldl (fun c o => o c) defaultConfig).EnableOTLP = true ∧
            otlpErr = none)))) := by
  refine ⟨?_, ?_, buildCores_ok_iff cfg level otlpErr, ?_⟩
  · intro r hr
    cases hs : cfg.EnableStdout <;> cases ho : cfg.EnableOTLP <;> cases otlpErr <;>
      simp_all [buildCores, createOTLPCore, hs, ho] <;>
      (try cases hr) <;> rfl
  · intro r e hr ho he
    subst he
    cases hs : cfg.EnableStdout <;>
      simp_all [buildCores, createOTLPCore, hs, ho] <;>
      (cases hr; exact ⟨rfl, rfl, rfl⟩)
  · intro hlv
    have hiff := buildCores_ok_iff (opts.foldl (fun c o => o c) defaultConfig)
      (parseLevel ((opts.foldl (fun c o => o c) defaultConfig).Level)).1 otlpErr
    cases hbc : buildCores (opts.foldl (fun c o => o c) defaultConfig)
        (parseLevel ((opts.foldl (fun c o => o c) defaultConfig).Level)).1 otlpErr with
    | error e =>
        rw [← hiff]
        constructor
        · rintro ⟨res, hres⟩
          simp only [NewLogger, hlv, hbc] at hres
          exact Except.noConfusion hres
        · rintro ⟨r, hr⟩
          rw [hbc] at hr
          exact Except.noConfusion hr
    | ok r =>
        rw [← hiff]
        constructor
        · intro _
          exact ⟨r, hbc⟩
        · intro _
          refine ⟨⟨⟨r.cores, r.hasProvider, opts.foldl (fun c o => o c) defaultConfig⟩,
            r.stderrOut⟩, ?_⟩
          simp only [NewLogger, hlv, hbc]

/-- C2 witness: with the default configuration plus remote enabled and a
failing remote creation, construction still succeeds with just the console
core and the failure logged; with console disabled as well, construction
fails. -/
theorem c2_core_construction_witness :
    (buildCores { defaultConfig with EnableOTLP := true } InfoLevel
        (some ("dial error")) = Except.ok
          ⟨[Core.stdout true InfoLevel], false,
            [("failed to create OTLP core: ") ++ ("dial error")]⟩)
  ∧ ¬ ∃ r, buildCores { defaultConfig with EnableStdout := false } InfoLevel
        (some ("dial error")) = Except.ok r := by
  constructor
  · have h := (c2_core_construction { defaultConfig with EnableOTLP := true } InfoLevel
      (some ("dial error")) []).2.1 ⟨[Core.stdout true InfoLevel], false,
        [("failed to create OTLP core: ") ++ ("dial error")]⟩ ("dial error") rfl rfl rfl
    exact rfl
  · intro hex
    have h := (c2_core_construction { defaultConfig with EnableStdout := false } InfoLevel
      (some ("dial error")) []).2.2.1.mp hex
    simp [defaultConfig] at h

/-- A list whose isEmpty flag is true is nil. -/
theorem isEmpty_true_eq_nil {α : Type} {l : List α} (h : l.isEmpty = true) : l = [] := by
  cases l with
  | nil => rfl
  | cons a l => simp [List.isEmpty] at h

/-- C6: the record Write produces carries body = message, the timestamp
of the entry, the mapped severity, the field attributes followed by a caller
attribute when the caller is defined and a stacktrace attribute when the
stack is nonempty; each entry of the encoder map appears as an attribute,
with string, bool, int64 and float64 values mapped directly and array,
map and other values rendered to their generic string representation. -/
theorem c6_record_contents (c : SimpleOTLPCore) (entry : Entry) (fields : List Field) :
    (c.Write entry fields).record = writeRecord entry fields
  ∧ (writeRecord entry fields).body = entry.message
  ∧ (writeRecord entry fields).timestamp = entry.time
  ∧ (writeRecord entry fields).severity = mapZapToOtelSeverity entry.level
  ∧ (writeRecord entry fields).attrs =
      encodeFieldsToAttrs fields
        ++ (if entry.caller.defined then [otelString ("caller") entry.caller.toText] else [])
        ++ (if entry.stack = ("") then [] else [otelString ("stacktrace") entry.stack])
  ∧ (∀ p ∈ buildFieldsMap fields,
      KeyValue.mk p.1 (attrValueOf p.2) ∈ (writeRecord entry fields).attrs)
  ∧ (∀ s, attrValueOf (EncValue.str s) = OtelValue.str s)
  ∧ (∀ b, attrValueOf (EncValue.boolv b) = OtelValue.boolv b)
  ∧ (∀ i, attrValueOf (EncValue.int64 i) = OtelValue.int64 i)
  ∧ (∀ x, attrValueOf (EncValue.float64 x) = OtelValue.float64 x)
  ∧ (∀ xs, attrValueOf (EncValue.arr xs) = OtelValue.str (sprintfV (EncValue.arr xs)))
  ∧ (∀ m, attrValueOf (EncValue.dict m) = OtelValue.str (sprintfV (EncValue.dict m))) := by
  have hattrs : (writeRecord entry fields).attrs =
      encodeFieldsToAttrs fields
        ++ (if entry.caller.defined then [otelString ("caller") entry.caller.toText] else [])
        ++ (if entry.stack = ("") then [] else [otelString ("stacktrace") entry.stack]) := by
    simp only [writeRecord, makeBaseRecord, OtelRecord.AddAttributes]
    split_ifs <;>
      simp_all [encodeFieldsToAttrs, isEmpty_true_eq_nil, List.append_assoc]
  refine ⟨rfl, ?_, ?_, ?_, hattrs, ?_, fun s => rfl, fun b => rfl, fun i => rfl,
    fun x => rfl, fun xs => rfl, fun m => rfl⟩
  · simp only [writeRecord, makeBaseRecord, OtelRecord.AddAttributes]
    split_ifs <;> rfl
  · simp only [writeRecord, makeBaseRecord, OtelRecord.AddAttributes]
    split_ifs <;> rfl
  · simp only [writeRecord, makeBaseRecord, OtelRecord.AddAttributes]
    split_ifs <;> rfl
  · intro p hp
    rw [hattrs]
    apply List.mem_append_left
    apply List.mem_append_left
    cases fields with
    | nil => simp [buildFieldsMap] at hp
    | cons f fsx =>
        have hsort : p ∈ List.insertionSort keyLe (buildFieldsMap (f :: fsx)) :=
          ((List.perm_insertionSort keyLe (buildFieldsMap (f :: fsx))).mem_iff).mpr hp
        have : (f :: fsx).isEmpty = false := rfl
        simp only [encodeFieldsToAttrs, this, Bool.false_eq_true, if_false]
        exact List.mem_map_of_mem
          (fun q : String × EncValue => ({ key := q.1, value := attrValueOf q.2 } : KeyValue))
          hsort

/-- C6 witness: the membership clause of the theorem at a concrete core, entry
and field list: the int64 field appears directly and the array field as its
rendered string, beside the caller and stacktrace attributes. -/
theorem c6_record_contents_witness :
    KeyValue.mk ("n") (attrValueOf (EncValue.int64 7)) ∈
      (writeRecord
        ⟨ErrorLevel, 9, (""), ("boom"), ⟨true, ("app/main.go"), 42⟩, ("trace")⟩
        [⟨("n"), EncValue.int64 7⟩, ⟨("xs"), EncValue.arr [EncValue.int64 1]⟩]).attrs :=
  (c6_record_contents ⟨true, true, 0, 42⟩
    ⟨ErrorLevel, 9, (""), ("boom"), ⟨true, ("app/main.go"), 42⟩, ("trace")⟩
    [⟨("n"), EncValue.int64 7⟩, ⟨("xs"), EncValue.arr [EncValue.int64 1]⟩]).2.2.2.2.2.1
    (("n"), EncValue.int64 7) (List.mem_cons_self _ _)

/-- Looking a key up after a map assignment sees the new value for that key
and is unchanged elsewhere. -/
theorem mapGet_mapSet (m : List (String × EncValue)) (k k2 : String) (v : EncValue) :
    mapGet (mapSet m k v) k2 = if k2 = k then some v else mapGet m k2 := by
  induction m with
  | nil =>
      simp only [mapSet, mapGet]
      by_cases h : k2 = k
      · simp [h]
      · simp [h, Ne.symm h]
  | cons p rest ih =>
      simp only [mapSet]
      by_cases hp : p.1 = k
      · simp only [if_pos hp, mapGet]
        by_cases h : k2 = k
        · simp [h]
        · have hp2 : ¬(p.1 = k2) := by rw [hp]; exact Ne.symm h
          simp [h, Ne.symm h, hp2]
      · simp only [if_neg hp, mapGet, ih]
        by_cases hpk2 : p.1 = k2
        · have hne : ¬(k2 = k) := fun hh => hp (hpk2.trans hh)
          simp [hpk2, hne]
        · simp [hpk2]

/-- Folding field insertions over an accumulator: a lookup sees the value
of the last inserted field with that key, falling back to the accumulator. -/
theorem mapGet_foldl (fields : List Field) :
    ∀ (m : List (String × EncValue)) (k : String),
      mapGet (fields.foldl (fun m f => mapSet m f.key f.value) m) k =
        match lastValue? fields k with
        | some v => some v
        | none => mapGet m k := by
  induction fields with
  | nil => intro m k; rfl
  | cons f rest ih =>
      intro m k
      simp only [List.foldl_cons, lastValue?]
      rw [ih]
      cases hlast : lastValue? rest k with
      | some v => rfl
      | none =>
          simp only [mapGet_mapSet]
          by_cases hk : f.key = k
          · simp [hk]
          · have : ¬(k = f.key) := Ne.symm hk
            simp [hk, this]

/-- The encoder map holds, for each key, the value of the last field with
that key. -/
theorem mapGet_buildFieldsMap (fields : List Field) (k : String) :
    mapGet (buildFieldsMap fields) k = lastValue? fields k := by
  rw [buildFieldsMap, mapGet_foldl]
  cases lastValue? fields k <;> rfl

/-- Key list of a map after assignment: unchanged when the key was bound,
extended by the key otherwise. -/
theorem keys_mapSet (m : List (String × EncValue)) (k : String) (v : EncValue) :
    (mapSet m k v).map Prod.fst =
      if k ∈ m.map Prod.fst then m.map Prod.fst else m.map Prod.fst ++ [k] := by
  induction m with
  | nil => simp [mapSet]
  | cons p rest ih =>
      simp only [mapSet]
      by_cases hp : p.1 = k
      · simp [hp]
      · have : ¬(k = p.1) := Ne.symm hp
        simp only [if_neg hp, List.map_cons, ih, List.mem_cons, this, false_or]
        by_cases hk : k ∈ rest.map Prod.fst <;> simp [hk]

/-- A map assignment preserves distinctness of the keys. -/
theorem nodup_keys_mapSet (m : List (String × EncValue)) (k : String) (v : EncValue)
    (h : (m.map Prod.fst).Nodup) : ((mapSet m k v).map Prod.fst).Nodup := by
  rw [keys_mapSet]
  by_cases hk : k ∈ m.map Prod.fst
  · simp [hk, h]
  · simp [hk, h, List.nodup_append]

/-- The encoder map always has pairwise-distinct keys. -/
theorem nodup_keys_buildFieldsMap (fields : List Field) :
    ((buildFieldsMap fields).map Prod.fst).Nodup := by
  have hgen : ∀ (m : List (String × EncValue)), (m.map Prod.fst).Nodup →
      (((fields.foldl (fun m f => mapSet m f.key f.value) m)).map Prod.fst).Nodup := by
    induction fields with
    | nil => intro m hm; exact hm
    | cons f rest ih =>
        intro m hm
        simp only [List.foldl_cons]
        exact ih _ (nodup_keys_mapSet m f.key f.value hm)
  exact hgen [] (by simp)

/-- No entry of a map survives a key filter for a key the map does not
bind. -/
theorem filter_key_of_notin (m : List (String × EncValue)) (k : String)
    (h : k ∉ m.map Prod.fst) : m.filter (fun p => p.1 == k) = [] := by
  induction m with
  | nil => rfl
  | cons p rest ih =>
      simp only [List.map_cons, List.mem_cons, not_or] at h
      have hb : (p.1 == k) = false := by
        rw [beq_eq_false_iff_ne]
        exact fun hh => h.1 hh.symm
      simp [List.filter_cons, hb, ih h.2]

/-- In a map with distinct keys, filtering by a bound key keeps exactly the
binding of that key. -/
theorem filter_eq_singleton_of_mapGet (m : List (String × EncValue)) (k : String) (v : EncValue)
    (hnd : (m.map Prod.fst).Nodup) (hget : mapGet m k = some v) :
    m.filter (fun p => p.1 == k) = [(k, v)] := by
  induction m with
  | nil => simp [mapGet] at hget
  | cons p rest ih =>
      obtain ⟨p1, p2⟩ := p
      simp only [mapGet] at hget
      simp only [List.map_cons, List.nodup_cons] at hnd
      by_cases hp : p1 = k
      · rw [if_pos hp] at hget
        injection hget with hv
        have hrest : rest.filter (fun p => p.1 == k) = [] :=
          filter_key_of_notin rest k (by rw [← hp]; exact hnd.1)
        have hb : ((p1, p2).1 == k) = true := beq_iff_eq.mpr hp
        subst hp
        subst hv
        simp [List.filter_cons, hb, hrest]
      · rw [if_neg hp] at hget
        have hb : ((p1, p2).1 == k) = false := by
          rw [beq_eq_false_iff_ne]
          exact hp
        simp only [List.filter_cons, hb, if_neg]
        exact ih hnd.2 hget

/-- Filtering the produced attributes by key is filtering the map entries
by key, then producing attributes. -/
theorem filter_key_map (l : List (String × EncValue)) (k : String) :
    (l.map (fun p => ({ key := p.1, value := attrValueOf p.2 } : KeyValue))).filter
        (fun a => a.key == k) =
      (l.filter (fun p => p.1 == k)).map
        (fun p => ({ key := p.1, value := attrValueOf p.2 } : KeyValue)) := by
  induction l with
  | nil => rfl
  | cons p rest ih =>
      simp only [List.map_cons, List.filter_cons]
      have hsame : (({ key := p.1, value := attrValueOf p.2 } : KeyValue).key == k)
          = (p.1 == k) := rfl
      rw [hsame]
      cases hb : (p.1 == k) <;> simp [hb, ih]

/-- Assigning an unbound key appends the binding at the end. -/
theorem mapSet_notin (m : List (String × EncValue)) (k : String) (v : EncValue)
    (h : k ∉ m.map Prod.fst) : mapSet m k v = m ++ [(k, v)] := by
  induction m with
  | nil => rfl
  | cons p rest ih =>
      simp only [List.map_cons, List.mem_cons, not_or] at h
      have hne : ¬(p.1 = k) := fun hh => h.1 hh.symm
      simp only [mapSet, if_neg hne]
      rw [ih h.2]
      rfl

/-- With pairwise-distinct field keys no overwrite ever happens, so the
encoder map is the field list itself as pairs. -/
theorem buildFieldsMap_of_nodup (fields : List Field)
    (h : (fields.map Field.key).Nodup) :
    buildFieldsMap fields = fields.map (fun f => (f.key, f.value)) := by
  have hgen : ∀ (fs : List Field) (m : List (String × EncValue)),
      ((m ++ fs.map (fun f => (f.key, f.value))).map Prod.fst).Nodup →
      fs.foldl (fun m f => mapSet m f.key f.value) m =
        m ++ fs.map (fun f => (f.key, f.value)) := by
    intro fs
    induction fs with
    | nil => intro m _; simp
    | cons f rest ih =>
        intro m hm
        have hmm : ((m ++ ((f.key, f.value) :: rest.map (fun f => (f.key, f.value)))).map
            Prod.fst).Nodup := hm
        have hkey : f.key ∉ m.map Prod.fst := by
          intro hmem
          rw [List.map_append] at hmm
          rcases List.nodup_append.mp hmm with ⟨_, _, hdisj⟩
          exact hdisj hmem (by simp)
        simp only [List.foldl_cons]
        rw [mapSet_notin m f.key f.value hkey]
        rw [ih (m ++ [(f.key, f.value)]) (by simpa using hm)]
        simp
  have hfin := hgen fields []
  simp only [List.nil_append] at hfin
  apply hfin
  rw [List.map_map]
  exact h

/-- A key-sorted list with distinct keys is strictly key-sorted. -/
theorem sorted_keyLt_of_nodup {β : Type} (l : List (String × β))
    (hs : List.Sorted (@keyLe β) l) (hnd : (l.map Prod.fst).Nodup) :
    List.Pairwise (fun a b : String × β => a.1 < b.1) l := by
  have hne : l.Pairwise (fun a b : String × β => a.1 ≠ b.1) := by
    rw [List.Nodup, List.pairwise_map] at hnd
    exact hnd
  exact (List.Pairwise.and hs hne).imp (fun h => lt_of_le_of_ne h.1 h.2)

/-- Reordering fields with pairwise-distinct keys does not change the
produced attribute list. -/
theorem encodeFields_perm_invariant (xs ys : List Field) (hperm : xs.Perm ys)
    (hnd : (xs.map Field.key).Nodup) :
    encodeFieldsToAttrs xs = encodeFieldsToAttrs ys := by
  have hynd : (ys.map Field.key).Nodup := ((hperm.map Field.key).nodup_iff).mp hnd
  have hbx := buildFieldsMap_of_nodup xs hnd
  have hby := buildFieldsMap_of_nodup ys hynd
  have hmp : (buildFieldsMap xs).Perm (buildFieldsMap ys) := by
    rw [hbx, hby]
    exact hperm.map _
  have hpp : (List.insertionSort keyLe (buildFieldsMap xs)).Perm
      (List.insertionSort keyLe (buildFieldsMap ys)) :=
    ((List.perm_insertionSort keyLe _).trans hmp).trans
      (List.perm_insertionSort keyLe _).symm
  have hndx : ((List.insertionSort keyLe (buildFieldsMap xs)).map Prod.fst).Nodup :=
    (((List.perm_insertionSort keyLe _).map Prod.fst).nodup_iff).mpr
      (nodup_keys_buildFieldsMap xs)
  have hndy : ((List.insertionSort keyLe (buildFieldsMap ys)).map Prod.fst).Nodup :=
    (((List.perm_insertionSort keyLe _).map Prod.fst).nodup_iff).mpr
      (nodup_keys_buildFieldsMap ys)
  have heq : List.insertionSort keyLe (buildFieldsMap xs)
      = List.insertionSort keyLe (buildFieldsMap ys) := by
    haveI : IsAntisymm (String × EncValue) (fun a b => a.1 < b.1) :=
      ⟨fun a b h1 h2 => absurd (lt_trans h1 h2) (lt_irrefl _)⟩
    exact List.eq_of_perm_of_sorted hpp
      (sorted_keyLt_of_nodup _ (List.sorted_insertionSort keyLe _) hndx)
      (sorted_keyLt_of_nodup _ (List.sorted_insertionSort keyLe _) hndy)
  rcases hx : xs with _ | ⟨f, xrest⟩
  · have hy : ys = [] := (hx ▸ hperm).symm.eq_nil
    rw [hy]
  · rcases hy : ys with _ | ⟨g, yrest⟩
    · exact absurd ((hx ▸ hy ▸ hperm).eq_nil) (by simp)
    · simp only [encodeFieldsToAttrs, List.isEmpty_cons, Bool.false_eq_true, if_false]
      rw [← hx, ← hy, heq]

/-- C10: field-to-attribute conversion has Go map semantics: fields sharing
a key collapse to exactly one attribute carrying the value of the later
field,
and the produced attribute order is a function of the final key-value map
alone, not of the input field order (reordering distinct-key fields leaves
the output unchanged). -/
theorem c10_encoder_map_semantics (fields xs ys : List Field) (k : String) (v : EncValue) :
    (lastValue? fields k = some v →
      (encodeFieldsToAttrs fields).filter (fun a => a.key == k) =
        [KeyValue.mk k (attrValueOf v)])
  ∧ (xs.Perm ys → (xs.map Field.key).Nodup →
      encodeFieldsToAttrs xs = encodeFieldsToAttrs ys) := by
  constructor
  · intro hlast
    rcases fields with _ | ⟨f, rest⟩
    · simp [lastValue?] at hlast
    · have hget : mapGet (buildFieldsMap (f :: rest)) k = some v := by
        rw [mapGet_buildFieldsMap]
        exact hlast
      have hnd := nodup_keys_buildFieldsMap (f :: rest)
      have hM := filter_eq_singleton_of_mapGet _ k v hnd hget
      have hpf : List.Perm
          ((List.insertionSort keyLe (buildFieldsMap (f :: rest))).filter
            (fun p : String × EncValue => p.1 == k)) [(k, v)] := by
        rw [← hM]
        exact (List.perm_insertionSort keyLe _).filter _
      have hsing := List.perm_singleton.mp hpf
      simp only [encodeFieldsToAttrs, List.isEmpty_cons, Bool.false_eq_true, if_false,
        filter_key_map, hsing]
      rfl
  · intro hp hnd
    exact encodeFields_perm_invariant xs ys hp hnd

/-- C10 witness: two fields keyed a collapse to one attribute holding the
later value 2, and swapping two distinct-key fields leaves the attribute
list unchanged. -/
theorem c10_encoder_map_semantics_witness :
    (encodeFieldsToAttrs [⟨("a"), EncValue.str ("1")⟩, ⟨("a"), EncValue.str ("2")⟩]).filter
        (fun a => a.key == ("a")) = [KeyValue.mk ("a") (attrValueOf (EncValue.str ("2")))]
  ∧ encodeFieldsToAttrs [⟨("b"), EncValue.str ("1")⟩, ⟨("a"), EncValue.str ("2")⟩] =
      encodeFieldsToAttrs [⟨("a"), EncValue.str ("2")⟩, ⟨("b"), EncValue.str ("1")⟩] :=
  ⟨(c10_encoder_map_semantics [⟨("a"), EncValue.str ("1")⟩, ⟨("a"), EncValue.str ("2")⟩]
      [] [] ("a") (EncValue.str ("2"))).1 rfl,
   (c10_encoder_map_semantics [] [⟨("b"), EncValue.str ("1")⟩, ⟨("a"), EncValue.str ("2")⟩]
      [⟨("a"), EncValue.str ("2")⟩, ⟨("b"), EncValue.str ("1")⟩] ("x")
      (EncValue.str ("x"))).2 (List.Perm.swap _ _ _) (by decide)⟩

end Otelzap
